import Mathlib

/-!
Verification development for the blockchain-cmix-relay proxy.

Shallow embedding of the core data model and operations:
  - the CONNECT tunnel connection (`Conn` in http/client/cmd/http.go and the
    relay-side copy in the connect server file): reorder buffer, process pump,
    read pump close emission;
  - the client dispatcher (`Api.doRequest` in blockchain/client/api/api.go and
    `Relay.Request` in the relay tracker file): custom-URI rewriting, active /
    supported relay filtering, the retry loop, status-code parsing;
  - the relay-side network registry (`Manager.initNetworks`) and the JSON-RPC
    query executor (`Network.Callback`, `getEndpointFromHeaders`,
    `isValidHTTPSURL`, `testConnectJsonRpc`, `doQuery`);
  - the relay-side `/proxy` forwarder (`HttpProxy.Callback`) scheme-prefix check.

External effects (the mixnet transport, TCP sockets, the Go HTTP client,
net/url parsing, JSON codecs, the PRNG) are modelled as explicit oracle
parameters; bytes are `Nat` values (< 256 in the Go program), Go `uint32`
counters are `Nat` (no arithmetic near 2^32 occurs in the verified scope).
-/

namespace Proxxy

/-- Byte strings: Go `[]byte`, one `Nat` (< 256) per byte. -/
abbrev Bytes := List Nat

/-- Bytes of a Go string (`[]byte(s)`); code points stand in for UTF-8 bytes,
which agree on the ASCII strings handled here. -/
def strBytes (s : String) : Bytes := s.data.map Char.toNat

/-- Go string of a byte slice (`string(b)`), inverse of `strBytes` on ASCII. -/
def bytesStr (b : Bytes) : String := ⟨b.map Char.ofNat⟩

/-! ## CONNECT tunnel (client Conn in http.go; identical relay-side Conn) -/

/-- Tunnel envelope: `Message` with `Command`, `ID`, `Data`, `Counter`
(http.go, connect server file). Counters are Go `uint32`, embedded as `Nat`. -/
structure Message where
  command : String
  id : Nat
  data : Bytes
  counter : Nat
deriving DecidableEq, Repr

/-- Tunnel connection state: the fields of `Conn` that the pumps touch, plus
`written`, the bytes the process pump has passed to `tcpConn.Write` so far. -/
@[ext]
structure Conn where
  id : Nat
  stopped : Bool
  writeCounter : Nat
  readCounter : Nat
  bufferReads : Nat → Option Message
  written : Bytes

/-- `NewConn`: fresh connection, counters zero, empty reorder buffer. -/
def Conn.new (id : Nat) : Conn :=
  { id := id, stopped := false, writeCounter := 0, readCounter := 0,
    bufferReads := fun _ => none, written := [] }

/-- `Conn.Receive`: store the envelope in the reorder buffer keyed by its
counter (`c.bufferReads[msg.Counter] = msg`). -/
def Conn.Receive (c : Conn) (msg : Message) : Conn :=
  { c with bufferReads := Function.update c.bufferReads msg.counter (some msg) }

/-- `Conn.Stop`: set the stopped flag (and close the TCP socket). -/
def Conn.Stop (c : Conn) : Conn := { c with stopped := true }

/-- One tick of `Conn.process`: if stopped, return; otherwise if the buffer
holds the envelope at `readCounter`, handle it (`data`: write payload to the
TCP socket; `close`: `Stop()` and remove from the session map), delete it from
the buffer and increment `readCounter`. -/
def Conn.processStep (c : Conn) : Conn :=
  if c.stopped then c
  else
    match c.bufferReads c.readCounter with
    | none => c
    | some msg =>
      let c1 :=
        if msg.command = "data" then { c with written := c.written ++ msg.data }
        else if msg.command = "close" then c.Stop
        else c
      { c1 with
        bufferReads := Function.update c1.bufferReads c.readCounter none,
        readCounter := c.readCounter + 1 }

/-- `n` ticks of the process pump. -/
def Conn.processSteps (c : Conn) : Nat → Conn
  | 0 => c
  | n + 1 => c.processStep.processSteps n

/-- Deliver a sequence of envelopes through `Conn.Receive`. -/
def Conn.receiveAll (c : Conn) (msgs : List Message) : Conn :=
  msgs.foldl Conn.Receive c

/-- The close envelope `Conn.read` builds when the TCP stream ends. -/
def Conn.closeMessage (c : Conn) : Message :=
  { command := "close", id := c.id, data := [], counter := c.writeCounter }

/-- The tail of `Conn.read` after `io.Copy` returns: if the stopped flag is
still false, set it and emit a `close` envelope; otherwise emit nothing. -/
def Conn.readFinish (c : Conn) : Conn × Option Message :=
  if c.stopped then (c, none)
  else ({ c with stopped := true }, some c.closeMessage)

/-- Payload stored in the buffer at counter `x` (empty when absent). -/
def Conn.dataAt (c : Conn) (x : Nat) : Bytes :=
  ((c.bufferReads x).map Message.data).getD []

theorem receiveAll_stopped (msgs : List Message) (c : Conn) :
    (c.receiveAll msgs).stopped = c.stopped := by
  induction msgs generalizing c with
  | nil => rfl
  | cons m rest ih => simpa [Conn.receiveAll, Conn.Receive] using ih _

theorem receiveAll_readCounter (msgs : List Message) (c : Conn) :
    (c.receiveAll msgs).readCounter = c.readCounter := by
  induction msgs generalizing c with
  | nil => rfl
  | cons m rest ih => simpa [Conn.receiveAll, Conn.Receive] using ih _

theorem receiveAll_written (msgs : List Message) (c : Conn) :
    (c.receiveAll msgs).written = c.written := by
  induction msgs generalizing c with
  | nil => rfl
  | cons m rest ih => simpa [Conn.receiveAll, Conn.Receive] using ih _

theorem receiveAll_buffer_not_mem (msgs : List Message) (c : Conn) (x : Nat)
    (hx : x ∉ msgs.map Message.counter) :
    (c.receiveAll msgs).bufferReads x = c.bufferReads x := by
  induction msgs generalizing c with
  | nil => rfl
  | cons m rest ih =>
    simp only [List.map_cons, List.mem_cons, not_or] at hx
    rw [Conn.receiveAll, List.foldl_cons, ← Conn.receiveAll, ih _ hx.2]
    simp [Conn.Receive, Function.update, hx.1]

theorem receiveAll_buffer_find (msgs : List Message) (c : Conn) (x : Nat)
    (hnd : (msgs.map Message.counter).Nodup) (m : Message)
    (hfind : msgs.find? (fun m => m.counter == x) = some m) :
    (c.receiveAll msgs).bufferReads x = some m := by
  induction msgs generalizing c with
  | nil => simp at hfind
  | cons m0 rest ih =>
    simp only [List.map_cons, List.nodup_cons] at hnd
    rw [List.find?_cons] at hfind
    rw [Conn.receiveAll, List.foldl_cons, ← Conn.receiveAll]
    by_cases hc : m0.counter = x
    · simp only [hc, beq_self_eq_true] at hfind
      have hx : x ∉ rest.map Message.counter := hc ▸ hnd.1
      rw [receiveAll_buffer_not_mem _ _ _ hx]
      cases hfind
      simp [Conn.Receive, Function.update, hc]
    · have : (m0.counter == x) = false := by simp [hc]
      rw [this] at hfind
      exact ih _ hnd.2 hfind

theorem find?_counter_eq (msgs : List Message) (x : Nat) (m : Message)
    (h : msgs.find? (fun m => m.counter == x) = some m) : m.counter = x := by
  have := List.find?_some h
  simpa using this

/-- Drain lemma: with `n` consecutive `data` envelopes sitting in the buffer
from `readCounter` on, `n` process-pump ticks write their payloads in counter
order, advance `readCounter` by `n`, and clear the processed buffer slots. -/
theorem processSteps_drain (n : Nat) : ∀ (rc : Nat) (c : Conn),
    c.stopped = false → c.readCounter = rc →
    (∀ j, j < n → ∃ m, c.bufferReads (rc + j) = some m ∧ m.command = "data") →
    c.processSteps n =
      { c with
        written := c.written ++ ((List.range n).map (fun j => c.dataAt (rc + j))).flatten,
        readCounter := rc + n,
        bufferReads := fun x => if rc ≤ x ∧ x < rc + n then none else c.bufferReads x } := by
  induction n with
  | zero =>
    intro rc c hs hrc _
    subst hrc
    simp only [Conn.processSteps, List.range_zero, List.map_nil, List.flatten_nil,
      List.append_nil, Nat.add_zero]
    refine Conn.ext rfl rfl rfl rfl ?_ rfl
    funext x
    have hx : ¬(c.readCounter ≤ x ∧ x < c.readCounter) := by omega
    simp [hx]
  | succ n ih =>
    intro rc c hs hrc hbuf
    obtain ⟨m0, hm0, hm0d⟩ := hbuf 0 (Nat.succ_pos n)
    rw [Nat.add_zero] at hm0
    have hstep : c.processStep =
        { c with
          written := c.written ++ m0.data,
          readCounter := rc + 1,
          bufferReads := Function.update c.bufferReads rc none } := by
      simp [Conn.processStep, hs, hrc, hm0, hm0d]
    have hb' : ∀ j, j < n →
        ∃ m, Function.update c.bufferReads rc none (rc + 1 + j) = some m ∧
          m.command = "data" := by
      intro j hj
      obtain ⟨m, hm, hmd⟩ := hbuf (j + 1) (Nat.succ_lt_succ hj)
      refine ⟨m, ?_, hmd⟩
      have hne : rc + 1 + j ≠ rc := by omega
      rw [Function.update_noteq hne]
      have harith : rc + 1 + j = rc + (j + 1) := by omega
      rw [harith]
      exact hm
    have hrec := ih (rc + 1)
      { c with
        written := c.written ++ m0.data,
        readCounter := rc + 1,
        bufferReads := Function.update c.bufferReads rc none }
      (by simp [hs]) rfl hb'
    rw [Conn.processSteps, hstep, hrec]
    have hdat : ∀ j : Nat,
        Conn.dataAt { c with
          written := c.written ++ m0.data,
          readCounter := rc + 1,
          bufferReads := Function.update c.bufferReads rc none } (rc + 1 + j)
        = c.dataAt (rc + 1 + j) := by
      intro j
      have hne : rc + 1 + j ≠ rc := by omega
      simp only [Conn.dataAt, Function.update_noteq hne]
    refine Conn.ext rfl rfl rfl ?_ ?_ ?_
    · show rc + 1 + n = rc + (n + 1)
      omega
    · funext x
      show (if rc + 1 ≤ x ∧ x < rc + 1 + n then none
          else Function.update c.bufferReads rc none x) =
        if rc ≤ x ∧ x < rc + (n + 1) then none else c.bufferReads x
      by_cases h1 : rc + 1 ≤ x ∧ x < rc + 1 + n
      · have h2 : rc ≤ x ∧ x < rc + (n + 1) := by omega
        simp [h1, h2]
      · simp only [h1, if_false]
        by_cases h3 : x = rc
        · rw [h3]
          have h2 : rc ≤ rc ∧ rc < rc + (n + 1) := by omega
          simp [h2, Function.update_same]
        · have h2 : (rc ≤ x ∧ x < rc + (n + 1)) ↔ False := by
            constructor
            · intro hx
              exact h1 (by omega)
            · exact False.elim
          rw [Function.update_noteq h3]
          simp [h2]
    · show c.written ++ m0.data ++
          ((List.range n).map (fun j =>
            Conn.dataAt { c with
              written := c.written ++ m0.data,
              readCounter := rc + 1,
              bufferReads := Function.update c.bufferReads rc none } (rc + 1 + j))).flatten
        = c.written ++ ((List.range (n + 1)).map (fun j => c.dataAt (rc + j))).flatten
      have hmc : ((List.range n).map (fun j =>
          Conn.dataAt { c with
            written := c.written ++ m0.data,
            readCounter := rc + 1,
            bufferReads := Function.update c.bufferReads rc none } (rc + 1 + j)))
          = (List.range n).map (fun j => c.dataAt (rc + (j + 1))) := by
        refine List.map_congr_left ?_
        intro j _
        rw [hdat j]
        congr 1
        omega
      rw [hmc]
      have hrange : (List.range (n + 1)).map (fun j => c.dataAt (rc + j)) =
          c.dataAt rc :: (List.range n).map (fun j => c.dataAt (rc + (j + 1))) := by
        rw [List.range_succ_eq_map, List.map_cons, List.map_map]
        rfl
      rw [hrange]
      simp only [List.flatten_cons, List.append_assoc]
      congr 1
      simp [Conn.dataAt, hm0]

/-- C1: for every tunnel connection and every finite set of `data` envelopes
delivered via `Conn.Receive` whose counters form a permutation of `0..k-1`,
running the process-pump tick `k` times writes the payloads to the TCP socket
in increasing counter order (the bytes written equal the concatenation of
payloads in counter order), drains the reorder buffer completely, and further
ticks are no-ops — regardless of arrival order (the list `msgs` is an
arbitrary arrival order). -/
theorem tunnel_inorder_delivery (id k : Nat) (msgs : List Message)
    (hdata : ∀ m ∈ msgs, m.command = "data")
    (hperm : (msgs.map Message.counter).Perm (List.range k)) :
    (((Conn.new id).receiveAll msgs).processSteps k).written =
      ((List.range k).map (fun i =>
        ((msgs.find? (fun m => m.counter == i)).map Message.data).getD [])).flatten
    ∧ (((Conn.new id).receiveAll msgs).processSteps k).readCounter = k
    ∧ (∀ x, (((Conn.new id).receiveAll msgs).processSteps k).bufferReads x = none)
    ∧ (((Conn.new id).receiveAll msgs).processSteps k).processStep =
        ((Conn.new id).receiveAll msgs).processSteps k := by
  have hnd : (msgs.map Message.counter).Nodup :=
    hperm.symm.nodup (List.nodup_range k)
  have hmem : ∀ x, x ∈ msgs.map Message.counter ↔ x < k := by
    intro x
    rw [hperm.mem_iff, List.mem_range]
  have hfind : ∀ j, j < k → ∃ m, msgs.find? (fun m => m.counter == j) = some m ∧
      m ∈ msgs ∧ m.counter = j ∧ m.command = "data" := by
    intro j hj
    have hjmem : j ∈ msgs.map Message.counter := (hmem j).mpr hj
    obtain ⟨m, hm, hmj⟩ := List.mem_map.mp hjmem
    have hsome : (msgs.find? (fun m => m.counter == j)).isSome := by
      rw [List.find?_isSome]
      exact ⟨m, hm, by simp [hmj]⟩
    obtain ⟨m', hm'⟩ := Option.isSome_iff_exists.mp hsome
    refine ⟨m', hm', List.mem_of_find?_eq_some hm', ?_, hdata m' (List.mem_of_find?_eq_some hm')⟩
    have := List.find?_some hm'
    simpa using this
  have hbuf0 : ∀ j, j < k →
      ((Conn.new id).receiveAll msgs).bufferReads j = msgs.find? (fun m => m.counter == j) := by
    intro j hj
    obtain ⟨m, hfm, _, _, _⟩ := hfind j hj
    rw [hfm]
    exact receiveAll_buffer_find msgs _ j hnd m hfm
  have hbufhigh : ∀ x, ¬(x < k) →
      ((Conn.new id).receiveAll msgs).bufferReads x = none := by
    intro x hx
    have hnm : x ∉ msgs.map Message.counter := fun h => hx ((hmem x).mp h)
    rw [receiveAll_buffer_not_mem msgs _ x hnm]
    rfl
  have hdrain := processSteps_drain k 0 ((Conn.new id).receiveAll msgs)
    (by rw [receiveAll_stopped]; rfl)
    (by rw [receiveAll_readCounter]; rfl)
    (by
      intro j hj
      obtain ⟨m, hfm, _, _, hmc⟩ := hfind j hj
      refine ⟨m, ?_, hmc⟩
      rw [Nat.zero_add, hbuf0 j hj, hfm])
  have hwr : (((Conn.new id).receiveAll msgs).processSteps k).written =
      ((List.range k).map (fun i =>
        ((msgs.find? (fun m => m.counter == i)).map Message.data).getD [])).flatten := by
    rw [hdrain]
    show ((Conn.new id).receiveAll msgs).written ++ _ = _
    rw [receiveAll_written]
    show ([] : Bytes) ++ _ = _
    rw [List.nil_append]
    congr 1
    refine List.map_congr_left ?_
    intro j hj
    rw [List.mem_range] at hj
    simp only [Conn.dataAt, Nat.zero_add, hbuf0 j hj]
  have hbf : ∀ x, (((Conn.new id).receiveAll msgs).processSteps k).bufferReads x = none := by
    intro x
    rw [hdrain]
    show (if 0 ≤ x ∧ x < 0 + k then none else _) = none
    by_cases hx : x < k
    · have h1 : 0 ≤ x ∧ x < 0 + k := by omega
      rw [if_pos h1]
    · have h1 : ¬(0 ≤ x ∧ x < 0 + k) := by omega
      rw [if_neg h1]
      exact hbufhigh x hx
  have hrc : (((Conn.new id).receiveAll msgs).processSteps k).readCounter = k := by
    rw [hdrain]
    show 0 + k = k
    omega
  have hst : (((Conn.new id).receiveAll msgs).processSteps k).stopped = false := by
    rw [hdrain]
    show ((Conn.new id).receiveAll msgs).stopped = false
    rw [receiveAll_stopped]
    rfl
  refine ⟨hwr, hrc, hbf, ?_⟩
  rw [Conn.processStep, hst]
  simp only [Bool.false_eq_true, if_false, hbf]

/-- Closed instance of C1: envelopes with counters arriving in order 2, 0, 1
are written to the TCP socket in counter order 0, 1, 2. -/
theorem tunnel_inorder_delivery_witness :
    (∀ m ∈ [Message.mk "data" 0 [5, 6] 2, Message.mk "data" 0 [1] 0,
      Message.mk "data" 0 [2, 3] 1], m.command = "data") ∧
    (([Message.mk "data" 0 [5, 6] 2, Message.mk "data" 0 [1] 0,
      Message.mk "data" 0 [2, 3] 1].map Message.counter).Perm (List.range 3)) ∧
    (((Conn.new 0).receiveAll [Message.mk "data" 0 [5, 6] 2, Message.mk "data" 0 [1] 0,
      Message.mk "data" 0 [2, 3] 1]).processSteps 3).written = [1, 2, 3, 5, 6] := by
  refine ⟨by decide, by decide, ?_⟩
  have h := (tunnel_inorder_delivery 0 3
    [Message.mk "data" 0 [5, 6] 2, Message.mk "data" 0 [1] 0,
      Message.mk "data" 0 [2, 3] 1] (by decide) (by decide)).1
  rw [h]
  rfl

/-- C9: the tunnel read pump emits a `close` envelope exactly when the TCP
stream ends while the stopped flag is still false; after `Stop()` or after the
process pump handles a received `close` envelope the flag is set, so the
read pump's post-read check emits nothing, and a stopped connection's process
pump makes no further writes. -/
theorem conn_close_only_when_unstopped (c : Conn) :
    (c.stopped = false → c.readFinish = ({ c with stopped := true }, some c.closeMessage)) ∧
    (c.stopped = true → c.readFinish = (c, none)) ∧
    (c.Stop.readFinish).2 = none ∧
    (c.stopped = true → c.processStep = c) ∧
    (c.stopped = false →
      ∀ m, c.bufferReads c.readCounter = some m → m.command = "close" →
        c.processStep.stopped = true ∧ (c.processStep.readFinish).2 = none) := by
  refine ⟨?_, ?_, ?_, ?_, ?_⟩
  · intro h
    simp [Conn.readFinish, h]
  · intro h
    simp [Conn.readFinish, h]
  · simp [Conn.readFinish, Conn.Stop]
  · intro h
    simp [Conn.processStep, h]
  · intro h m hm hmc
    have hncmd : ¬(m.command = "data") := by
      rw [hmc]
      decide
    have hstep : c.processStep.stopped = true := by
      simp [Conn.processStep, h, hm, hncmd, hmc, Conn.Stop]
    exact ⟨hstep, by simp [Conn.readFinish, hstep]⟩

/-- Closed instance of C9: a fresh connection that has received a `close`
envelope at counter 0 processes it and then emits no `close` of its own;
a stopped connection likewise emits nothing. -/
theorem conn_close_only_when_unstopped_witness :
    ((((Conn.new 7).Receive (Message.mk "close" 7 [] 0)).processStep).readFinish).2 = none ∧
    (((Conn.new 7).Stop).readFinish).2 = none := by
  constructor
  · exact ((conn_close_only_when_unstopped
      ((Conn.new 7).Receive (Message.mk "close" 7 [] 0))).2.2.2.2
      rfl (Message.mk "close" 7 [] 0) (by decide) rfl).2
  · exact (conn_close_only_when_unstopped (Conn.new 7)).2.2.1

/-! ## Dispatcher (blockchain/client/api/api.go and the relay tracker file) -/

/-- Split a character list before the first occurrence of `sep`
(`none` when `sep` does not occur); the splitting step of Go `strings.SplitN`. -/
def breakAtChar (sep : Char) : List Char → Option (List Char × List Char)
  | [] => none
  | c :: cs =>
    if c = sep then some ([], cs)
    else
      match breakAtChar sep cs with
      | none => none
      | some (pre, post) => some (c :: pre, post)

/-- Go `strings.SplitN(s, sep, n)` for a one-character separator: at most `n`
parts, the last part keeps the unsplit remainder. -/
def splitNCharAux (sep : Char) : Nat → List Char → List (List Char)
  | 0, _ => []
  | 1, cs => [cs]
  | n + 2, cs =>
    match breakAtChar sep cs with
    | none => [cs]
    | some (pre, post) => pre :: splitNCharAux sep (n + 1) post

def goSplitN (s : String) (sep : Char) (n : Nat) : List String :=
  (splitNCharAux sep n s.data).map String.mk

/-- `parseCustomUri` (api.go): `parts := strings.SplitN(uri, "/", 3)`; the
endpoint is `parts[2]` when `len(parts) > 2 && parts[1] == "custom"`,
else the empty string. -/
def parseCustomUri (uri : String) : String :=
  let parts := goSplitN uri '/' 3
  if 2 < parts.length ∧ parts.getD 1 "" = "custom" then parts.getD 2 "" else ""

/-- Relay tracker: name and advertised networks. In the source
`supportedNetworks` is a map rebuilt as the set of elements of `networks`,
so `SupportsNetwork` is membership in `networks`. -/
structure Relay where
  name : String
  networks : List String
deriving DecidableEq, Repr

def Relay.SupportsNetwork (r : Relay) (network : String) : Bool :=
  r.networks.contains network

/-- Reply envelope as the client sees it: `Content`, `Headers` (a nil-able
byte slice) and `Error`. -/
structure Response where
  content : Bytes
  headers : Option Bytes
  error : String
deriving DecidableEq, Repr

/-- `binary.LittleEndian.Uint16` of two bytes. -/
def leUint16 (b0 b1 : Nat) : Nat := b0 % 256 + 256 * (b1 % 256)

/-- The status code `Relay.Request` derives: starts at 500; replaced by the
little-endian `uint16` of the first two header bytes when the headers are
non-nil and hold at least two bytes. -/
def parsedCode (headers : Option Bytes) : Nat :=
  match headers with
  | some hs => if 2 ≤ hs.length then leUint16 (hs.getD 0 0) (hs.getD 1 0) else 500
  | none => 500

/-- `Relay.Request`: one mixnet single-use call (its outcome is the oracle
value `mix`); a transport failure returns `(nil, 500, err)`; otherwise the
code is parsed from the headers and a non-empty envelope `Error` is returned
as a failure carrying that code. -/
def RelayRequest (mix : Except String Response) : Option Bytes × Nat × Option String :=
  match mix with
  | .error e => (none, 500, some e)
  | .ok response =>
    let code := parsedCode response.headers
    if response.error ≠ "" then (none, code, some ("Response error: " ++ response.error))
    else (some response.content, code, none)

/-- Outgoing request envelope (`cmix.Request`). -/
structure Request where
  method : String
  uri : String
  data : Bytes
  headers : Option Bytes
deriving DecidableEq, Repr

/-- Result of `Api.doRequest`, extended with two observations: `sends`, the
number of mixnet sends performed (one per retry-loop attempt), and `request`,
the envelope handed to the transport (`none` when none was built). -/
structure DoReqOut where
  resp : Option Bytes
  code : Nat
  error : Option String
  sends : Nat
  request : Option Request
deriving DecidableEq, Repr

/-- `Api.activeRelayers`: the relayers whose `active` flag is set (Go
iterates a map; the fixed list order stands in for one iteration order). -/
def activeRelayers (relayers : List Relay) (active : String → Bool) : List Relay :=
  relayers.filter (fun r => active r.name)

/-- The `useRelayers` filter of `Api.doRequest`: active relayers supporting
the (rewritten) URI. -/
def useRelayers (relayers : List Relay) (active : String → Bool) (uri : String) : List Relay :=
  (activeRelayers relayers active).filter (fun r => r.SupportsNetwork uri)

/-- The URI actually sent: `/custom` when `parseCustomUri` found an endpoint. -/
def rewrittenUri (uri : String) : String :=
  if parseCustomUri uri ≠ "" then "/custom" else uri

/-- The envelope headers: the endpoint bytes for a custom URI, nil otherwise. -/
def rewrittenHeaders (uri : String) : Option Bytes :=
  if parseCustomUri uri ≠ "" then some (strBytes (parseCustomUri uri)) else none

/-- The candidate list after the conditional Fisher-Yates shuffle (`shuffle`
is the PRNG-determined permutation oracle, applied only when more than one
candidate exists). -/
def shuffledRelayers (shuffle : List Relay → List Relay) (use : List Relay) : List Relay :=
  if 1 < use.length then shuffle use else use

/-- Attempt `i` of the retry loop: ask the relay at index `i mod N` of the
shuffled candidate list (`send` is the transport oracle, indexed by relay
name and attempt number). -/
def attemptResult (send : String → Nat → Except String Response)
    (shuffled : List Relay) (i : Nat) : Option Bytes × Nat × Option String :=
  RelayRequest (send (shuffled.getD (i % shuffled.length) (Relay.mk "" [])).name i)

/-- The retry loop of `Api.doRequest`: attempt `t`, then stop on success or
when no budget remains (`remaining` = further attempts allowed, which in Go
is `retries - tries - 1` after the post-increment check `tries >= retries`).
Returns the last attempt's result and the total number of attempts. -/
def requestLoopGo (res : Nat → Option Bytes × Nat × Option String) :
    Nat → Nat → (Option Bytes × Nat × Option String) × Nat
  | 0, t => (res t, t + 1)
  | remaining + 1, t =>
    if (res t).2.2 = none then (res t, t + 1)
    else requestLoopGo res remaining (t + 1)

/-- The whole loop: starts at `tries = 0` with budget `retries`; note the Go
loop always makes its first attempt, so `retries - 1` further ones remain. -/
def requestLoop (res : Nat → Option Bytes × Nat × Option String) (retries : Nat) :
    (Option Bytes × Nat × Option String) × Nat :=
  requestLoopGo res (retries - 1) 0

/-- `Api.doRequest`: rewrite a `/custom/...` URI, snapshot active relayers
(fail 500 when none), filter by supported network (fail 400 when none),
shuffle, run the retry loop, and map an exhausted loop to 500. -/
def doRequest (send : String → Nat → Except String Response)
    (shuffle : List Relay → List Relay) (relayers : List Relay)
    (active : String → Bool) (retries : Nat)
    (method uri : String) (data : Bytes) : DoReqOut :=
  if (activeRelayers relayers active).length = 0 then
    DoReqOut.mk none 500 (some "relayers not active") 0 none
  else if (useRelayers relayers active (rewrittenUri uri)).length = 0 then
    DoReqOut.mk none 400 (some "unsupported network") 0 none
  else
    let req := Request.mk method (rewrittenUri uri) data (rewrittenHeaders uri)
    let shuffled := shuffledRelayers shuffle (useRelayers relayers active (rewrittenUri uri))
    let out := requestLoop (attemptResult send shuffled) retries
    if out.1.2.2 ≠ none then
      DoReqOut.mk none 500 (some "request exhausted number of retries") out.2 (some req)
    else DoReqOut.mk out.1.1 out.1.2.1 none out.2 (some req)

/-- `Api.Request(network, data)` = `doRequest(restlike.Post, network, data)`. -/
def apiRequest (send : String → Nat → Except String Response)
    (shuffle : List Relay → List Relay) (relayers : List Relay)
    (active : String → Bool) (retries : Nat)
    (network : String) (data : Bytes) : DoReqOut :=
  doRequest send shuffle relayers active retries "POST" network data

theorem requestLoopGo_tries_ge (res : Nat → Option Bytes × Nat × Option String) :
    ∀ rem t, t + 1 ≤ (requestLoopGo res rem t).2 := by
  intro rem
  induction rem with
  | zero => intro t; simp [requestLoopGo]
  | succ rem ih =>
    intro t
    rw [requestLoopGo]
    by_cases h : (res t).2.2 = none
    · simp [h]
    · rw [if_neg h]
      have := ih (t + 1)
      omega

theorem requestLoopGo_tries_le (res : Nat → Option Bytes × Nat × Option String) :
    ∀ rem t, (requestLoopGo res rem t).2 ≤ t + rem + 1 := by
  intro rem
  induction rem with
  | zero => intro t; simp [requestLoopGo]
  | succ rem ih =>
    intro t
    rw [requestLoopGo]
    by_cases h : (res t).2.2 = none
    · rw [if_pos h]
      show t + 1 ≤ t + (rem + 1) + 1
      omega
    · rw [if_neg h]
      have := ih (t + 1)
      omega

theorem requestLoopGo_result (res : Nat → Option Bytes × Nat × Option String) :
    ∀ rem t, (requestLoopGo res rem t).1 = res ((requestLoopGo res rem t).2 - 1) := by
  intro rem
  induction rem with
  | zero => intro t; simp [requestLoopGo]
  | succ rem ih =>
    intro t
    rw [requestLoopGo]
    by_cases h : (res t).2.2 = none
    · simp [h]
    · simp only [if_neg h]
      exact ih (t + 1)

theorem requestLoopGo_first_success (res : Nat → Option Bytes × Nat × Option String)
    (rem t : Nat) (h : (res t).2.2 = none) :
    requestLoopGo res rem t = (res t, t + 1) := by
  cases rem with
  | zero => simp [requestLoopGo]
  | succ rem => simp [requestLoopGo, h]

theorem requestLoopGo_before_failed (res : Nat → Option Bytes × Nat × Option String) :
    ∀ rem t i, t ≤ i → i + 1 < (requestLoopGo res rem t).2 → (res i).2.2 ≠ none := by
  intro rem
  induction rem with
  | zero =>
    intro t i hti hlt
    simp [requestLoopGo] at hlt
    omega
  | succ rem ih =>
    intro t i hti hlt
    rw [requestLoopGo] at hlt
    by_cases h : (res t).2.2 = none
    · simp [h] at hlt
      omega
    · simp only [if_neg h] at hlt
      by_cases hi : t = i
      · exact hi ▸ h
      · exact ih (t + 1) i (by omega) hlt

theorem requestLoopGo_all_fail (res : Nat → Option Bytes × Nat × Option String) :
    ∀ rem t, (∀ i, t ≤ i → i ≤ t + rem → (res i).2.2 ≠ none) →
    requestLoopGo res rem t = (res (t + rem), t + rem + 1) := by
  intro rem
  induction rem with
  | zero => intro t _; simp [requestLoopGo]
  | succ rem ih =>
    intro t hall
    rw [requestLoopGo]
    have h0 : (res t).2.2 ≠ none := hall t (le_refl t) (by omega)
    rw [if_neg h0]
    rw [ih (t + 1) (by intro i h1 h2; exact hall i (by omega) (by omega))]
    have harith : t + 1 + rem = t + (rem + 1) := by omega
    rw [harith]

/-- The attempt sequence a dispatcher call runs through: attempt `i` goes to
the shuffled candidate at index `i mod N`. -/
def dispatcherAttempts (send : String → Nat → Except String Response)
    (shuffle : List Relay → List Relay) (relayers : List Relay)
    (active : String → Bool) (uri : String) : Nat → Option Bytes × Nat × Option String :=
  attemptResult send (shuffledRelayers shuffle (useRelayers relayers active (rewrittenUri uri)))

theorem useRelayers_of_active_nil (relayers : List Relay) (active : String → Bool)
    (uri : String) (h : activeRelayers relayers active = []) :
    useRelayers relayers active uri = [] := by
  rw [useRelayers, h]
  rfl

/-- C2: with at least one active supporting relay and retry budget
`retries ≥ 1`, the dispatcher attempts the shuffled candidates at index
`i mod N` (that is what `dispatcherAttempts` performs) for `i = 0, 1, ...`;
the number of mixnet sends is between 1 and `retries`; it is 1 when the first
attempt succeeds; every attempt before the last failed (first success stops
the loop); if all attempts fail the call returns status 500 with error
`request exhausted number of retries`; and on success the result is the
successful attempt's. -/
theorem dispatcher_retry_bounds (s : String → Nat → Except String Response)
    (sh : List Relay → List Relay) (rl : List Relay) (a : String → Bool)
    (rt : Nat) (u : String) (d : Bytes)
    (hretries : 1 ≤ rt)
    (hsupp : useRelayers rl a (rewrittenUri u) ≠ []) :
    1 ≤ (apiRequest s sh rl a rt u d).sends ∧
    (apiRequest s sh rl a rt u d).sends ≤ rt ∧
    ((dispatcherAttempts s sh rl a u 0).2.2 = none →
      (apiRequest s sh rl a rt u d).sends = 1) ∧
    (∀ i, i + 1 < (apiRequest s sh rl a rt u d).sends →
      (dispatcherAttempts s sh rl a u i).2.2 ≠ none) ∧
    ((∀ i, i < rt → (dispatcherAttempts s sh rl a u i).2.2 ≠ none) →
      apiRequest s sh rl a rt u d =
        DoReqOut.mk none 500 (some "request exhausted number of retries") rt
          (some (Request.mk "POST" (rewrittenUri u) d (rewrittenHeaders u)))) ∧
    ((apiRequest s sh rl a rt u d).error = none →
      (dispatcherAttempts s sh rl a u ((apiRequest s sh rl a rt u d).sends - 1)).2.2 = none ∧
      (apiRequest s sh rl a rt u d).resp =
        (dispatcherAttempts s sh rl a u ((apiRequest s sh rl a rt u d).sends - 1)).1 ∧
      (apiRequest s sh rl a rt u d).code =
        (dispatcherAttempts s sh rl a u ((apiRequest s sh rl a rt u d).sends - 1)).2.1) := by
  have hact : ¬((activeRelayers rl a).length = 0) := by
    intro h0
    exact hsupp (useRelayers_of_active_nil rl a _ (List.length_eq_zero.mp h0))
  have huse : ¬((useRelayers rl a (rewrittenUri u)).length = 0) := by
    intro h0
    exact hsupp (List.length_eq_zero.mp h0)
  have hdo : apiRequest s sh rl a rt u d =
      (if (requestLoop (dispatcherAttempts s sh rl a u) rt).1.2.2 ≠ none then
        DoReqOut.mk none 500 (some "request exhausted number of retries")
          (requestLoop (dispatcherAttempts s sh rl a u) rt).2
          (some (Request.mk "POST" (rewrittenUri u) d (rewrittenHeaders u)))
      else
        DoReqOut.mk (requestLoop (dispatcherAttempts s sh rl a u) rt).1.1
          (requestLoop (dispatcherAttempts s sh rl a u) rt).1.2.1 none
          (requestLoop (dispatcherAttempts s sh rl a u) rt).2
          (some (Request.mk "POST" (rewrittenUri u) d (rewrittenHeaders u)))) := by
    rw [apiRequest, doRequest, if_neg hact, if_neg huse]
    rfl
  have hge := requestLoopGo_tries_ge (dispatcherAttempts s sh rl a u) (rt - 1) 0
  have hle := requestLoopGo_tries_le (dispatcherAttempts s sh rl a u) (rt - 1) 0
  have hres := requestLoopGo_result (dispatcherAttempts s sh rl a u) (rt - 1) 0
  have hsends : (apiRequest s sh rl a rt u d).sends =
      (requestLoop (dispatcherAttempts s sh rl a u) rt).2 := by
    rw [hdo]
    by_cases hf : (requestLoop (dispatcherAttempts s sh rl a u) rt).1.2.2 ≠ none
    · rw [if_pos hf]
    · rw [if_neg hf]
  refine ⟨?_, ?_, ?_, ?_, ?_, ?_⟩
  · rw [hsends]
    exact hge
  · rw [hsends]
    show (requestLoopGo (dispatcherAttempts s sh rl a u) (rt - 1) 0).2 ≤ rt
    omega
  · intro h0
    rw [hsends]
    show (requestLoopGo (dispatcherAttempts s sh rl a u) (rt - 1) 0).2 = 1
    rw [requestLoopGo_first_success (dispatcherAttempts s sh rl a u) (rt - 1) 0 h0]
  · intro i hi
    rw [hsends] at hi
    exact requestLoopGo_before_failed (dispatcherAttempts s sh rl a u) (rt - 1) 0 i
      (Nat.zero_le i) hi
  · intro hall
    have hfail := requestLoopGo_all_fail (dispatcherAttempts s sh rl a u) (rt - 1) 0
      (by
        intro i _ hle2
        exact hall i (by omega))
    have hlast : (requestLoop (dispatcherAttempts s sh rl a u) rt).1.2.2 ≠ none := by
      rw [requestLoop, hfail]
      exact hall (0 + (rt - 1)) (by omega)
    rw [hdo, if_pos hlast, requestLoop, hfail]
    have : 0 + (rt - 1) + 1 = rt := by omega
    rw [this]
  · intro herr
    have hsucc : ¬((requestLoop (dispatcherAttempts s sh rl a u) rt).1.2.2 ≠ none) := by
      intro hf
      rw [hdo, if_pos hf] at herr
      simp at herr
    rw [hdo, if_neg hsucc]
    push_neg at hsucc
    rw [requestLoop] at hsucc
    refine ⟨?_, ?_, ?_⟩
    · show (dispatcherAttempts s sh rl a u
        ((requestLoopGo (dispatcherAttempts s sh rl a u) (rt - 1) 0).2 - 1)).2.2 = none
      rw [← hres]
      exact hsucc
    · show (requestLoopGo (dispatcherAttempts s sh rl a u) (rt - 1) 0).1.1 = _
      rw [hres]
      rfl
    · show (requestLoopGo (dispatcherAttempts s sh rl a u) (rt - 1) 0).1.2.1 = _
      rw [hres]
      rfl

/-- Closed instance of C2: two active relays supporting `/x`, shuffle reverses
the list, the first shuffled candidate succeeds: exactly one mixnet send. -/
theorem dispatcher_retry_bounds_witness :
    useRelayers [Relay.mk "A" ["/x"], Relay.mk "B" ["/x"]] (fun _ => true)
      (rewrittenUri "/x") ≠ [] ∧
    (apiRequest
      (fun n _ => if n = "B" then Except.ok (Response.mk [9] (some [200, 0]) "")
        else Except.error "boom")
      List.reverse [Relay.mk "A" ["/x"], Relay.mk "B" ["/x"]] (fun _ => true)
      3 "/x" [1]).sends = 1 := by
  refine ⟨by decide, ?_⟩
  exact (dispatcher_retry_bounds
    (fun n _ => if n = "B" then Except.ok (Response.mk [9] (some [200, 0]) "")
      else Except.error "boom")
    List.reverse [Relay.mk "A" ["/x"], Relay.mk "B" ["/x"]] (fun _ => true)
    3 "/x" [1] (by omega) (by decide)).2.2.1 (by decide)

/-- C4: the dispatcher fails without sending exactly when no active relay
supports the (possibly rewritten) URI: with no active tracker it returns 500
`relayers not active`; with active trackers but no supporting one it returns
400 `unsupported network`; in both cases zero mixnet sends and no envelope,
and these are the only sendless outcomes. -/
theorem dispatcher_failfast (s : String → Nat → Except String Response)
    (sh : List Relay → List Relay) (rl : List Relay) (a : String → Bool)
    (rt : Nat) (m u : String) (d : Bytes) :
    (activeRelayers rl a = [] →
      doRequest s sh rl a rt m u d =
        DoReqOut.mk none 500 (some "relayers not active") 0 none) ∧
    (activeRelayers rl a ≠ [] →
      useRelayers rl a (rewrittenUri u) = [] →
      doRequest s sh rl a rt m u d =
        DoReqOut.mk none 400 (some "unsupported network") 0 none) ∧
    ((doRequest s sh rl a rt m u d).sends = 0 ↔
      useRelayers rl a (rewrittenUri u) = []) := by
  refine ⟨?_, ?_, ?_⟩
  · intro h0
    rw [doRequest, if_pos (by rw [h0]; rfl)]
  · intro hact h0
    rw [doRequest,
      if_neg (by rw [Ne, ← List.length_eq_zero] at hact; exact hact),
      if_pos (by rw [h0]; rfl)]
  · constructor
    · intro hz
      by_cases hact : (activeRelayers rl a).length = 0
      · exact useRelayers_of_active_nil rl a _ (List.length_eq_zero.mp hact)
      · by_cases huse : (useRelayers rl a (rewrittenUri u)).length = 0
        · exact List.length_eq_zero.mp huse
        · exfalso
          have hge := requestLoopGo_tries_ge
            (attemptResult s (shuffledRelayers sh (useRelayers rl a (rewrittenUri u))))
            (rt - 1) 0
          have hdo2 : doRequest s sh rl a rt m u d =
              (if (requestLoop (attemptResult s
                  (shuffledRelayers sh (useRelayers rl a (rewrittenUri u)))) rt).1.2.2 ≠ none then
                DoReqOut.mk none 500 (some "request exhausted number of retries")
                  (requestLoop (attemptResult s
                    (shuffledRelayers sh (useRelayers rl a (rewrittenUri u)))) rt).2
                  (some (Request.mk m (rewrittenUri u) d (rewrittenHeaders u)))
              else
                DoReqOut.mk
                  (requestLoop (attemptResult s
                    (shuffledRelayers sh (useRelayers rl a (rewrittenUri u)))) rt).1.1
                  (requestLoop (attemptResult s
                    (shuffledRelayers sh (useRelayers rl a (rewrittenUri u)))) rt).1.2.1 none
                  (requestLoop (attemptResult s
                    (shuffledRelayers sh (useRelayers rl a (rewrittenUri u)))) rt).2
                  (some (Request.mk m (rewrittenUri u) d (rewrittenHeaders u)))) := by
            rw [doRequest, if_neg hact, if_neg huse]
          rw [hdo2] at hz
          by_cases hf : (requestLoop
              (attemptResult s (shuffledRelayers sh (useRelayers rl a (rewrittenUri u))))
              rt).1.2.2 ≠ none
          · rw [if_pos hf] at hz
            have hz2 : (requestLoop (attemptResult s
                (shuffledRelayers sh (useRelayers rl a (rewrittenUri u)))) rt).2 = 0 := hz
            rw [requestLoop] at hz2
            omega
          · rw [if_neg hf] at hz
            have hz2 : (requestLoop (attemptResult s
                (shuffledRelayers sh (useRelayers rl a (rewrittenUri u)))) rt).2 = 0 := hz
            rw [requestLoop] at hz2
            omega
    · intro h0
      by_cases hact : (activeRelayers rl a).length = 0
      · rw [doRequest, if_pos hact]
      · rw [doRequest, if_neg hact, if_pos (by rw [h0]; rfl)]

/-- Closed instance of C4: an inactive relay yields 500 `relayers not active`
with zero sends; an active relay that does not support the URI yields 400
`unsupported network` with zero sends. -/
theorem dispatcher_failfast_witness :
    doRequest (fun _ _ => Except.error "e") id [Relay.mk "A" ["/x"]]
      (fun _ => false) 3 "POST" "/x" [1] =
      DoReqOut.mk none 500 (some "relayers not active") 0 none ∧
    doRequest (fun _ _ => Except.error "e") id [Relay.mk "A" ["/x"]]
      (fun _ => true) 3 "POST" "/y" [1] =
      DoReqOut.mk none 400 (some "unsupported network") 0 none := by
  constructor
  · exact (dispatcher_failfast (fun _ _ => Except.error "e") id [Relay.mk "A" ["/x"]]
      (fun _ => false) 3 "POST" "/x" [1]).1 (by decide)
  · exact (dispatcher_failfast (fun _ _ => Except.error "e") id [Relay.mk "A" ["/x"]]
      (fun _ => true) 3 "POST" "/y" [1]).2.1 (by decide) (by decide)

/-- C3 counterexample: a relay reply whose headers encode 404 little-endian
(`[148, 1]`) and whose envelope error is non-empty. `Relay.Request` fails
carrying the parsed code 404, but `Api.Request` (here with one active relay
supporting `/x` and 3 retries) retries the failure and returns 500 with
`request exhausted number of retries` — it does not propagate 404. -/
theorem relay_error_code_counterexample :
    (RelayRequest (Except.ok (Response.mk [7] (some [148, 1]) "boom"))).2.1 = 404 ∧
    (RelayRequest (Except.ok (Response.mk [7] (some [148, 1]) "boom"))).2.2 =
      some "Response error: boom" ∧
    apiRequest (fun _ _ => Except.ok (Response.mk [7] (some [148, 1]) "boom"))
      id [Relay.mk "A" ["/x"]] (fun _ => true) 3 "/x" [1] =
      DoReqOut.mk none 500 (some "request exhausted number of retries") 3
        (some (Request.mk "POST" "/x" [1] none)) := by
  refine ⟨by decide, by decide, by decide⟩

/-- C3 (amended): on a successful mixnet call `Relay.Request` parses the
status from the response headers (little-endian `uint16` of the first two
bytes when at least two are present, 500 otherwise) and returns a non-empty
envelope `error` as a failure carrying that parsed code; `Api.doRequest`
treats such a failure as a failed attempt and retries it, and when every
attempt fails it returns 500 with `request exhausted number of retries`
rather than the parsed code. -/
theorem relay_error_code_amended (resp : Response)
    (s : String → Nat → Except String Response) (sh : List Relay → List Relay)
    (rl : List Relay) (a : String → Bool) (rt : Nat) (u : String) (d : Bytes)
    (hretries : 1 ≤ rt) (hsupp : useRelayers rl a (rewrittenUri u) ≠ []) :
    ((RelayRequest (Except.ok resp)).2.1 = parsedCode resp.headers) ∧
    (∀ hs, resp.headers = some hs → 2 ≤ hs.length →
      parsedCode resp.headers = leUint16 (hs.getD 0 0) (hs.getD 1 0)) ∧
    (resp.headers = none → parsedCode resp.headers = 500) ∧
    (∀ hs, resp.headers = some hs → hs.length < 2 → parsedCode resp.headers = 500) ∧
    (resp.error ≠ "" → RelayRequest (Except.ok resp) =
      (none, parsedCode resp.headers, some ("Response error: " ++ resp.error))) ∧
    ((∀ i, i < rt → (dispatcherAttempts s sh rl a u i).2.2 ≠ none) →
      (apiRequest s sh rl a rt u d).code = 500 ∧
      (apiRequest s sh rl a rt u d).error = some "request exhausted number of retries") := by
  refine ⟨?_, ?_, ?_, ?_, ?_, ?_⟩
  · by_cases h : resp.error = ""
    · simp [RelayRequest, h]
    · simp [RelayRequest, h]
  · intro hs hhs hlen
    rw [hhs]
    show (if 2 ≤ hs.length then leUint16 (hs.getD 0 0) (hs.getD 1 0) else 500) = _
    rw [if_pos hlen]
  · intro hn
    rw [hn]
    rfl
  · intro hs hhs hlen
    rw [hhs]
    show (if 2 ≤ hs.length then leUint16 (hs.getD 0 0) (hs.getD 1 0) else 500) = _
    rw [if_neg (by omega)]
  · intro he
    simp [RelayRequest, he]
  · intro hall
    have hact : ¬((activeRelayers rl a).length = 0) := by
      intro h0
      exact hsupp (useRelayers_of_active_nil rl a _ (List.length_eq_zero.mp h0))
    have huse : ¬((useRelayers rl a (rewrittenUri u)).length = 0) := by
      intro h0
      exact hsupp (List.length_eq_zero.mp h0)
    have hfail := requestLoopGo_all_fail (dispatcherAttempts s sh rl a u) (rt - 1) 0
      (by
        intro i _ hle2
        exact hall i (by omega))
    have hlast : (requestLoop (dispatcherAttempts s sh rl a u) rt).1.2.2 ≠ none := by
      rw [requestLoop, hfail]
      exact hall (0 + (rt - 1)) (by omega)
    have hdo : apiRequest s sh rl a rt u d =
        DoReqOut.mk none 500 (some "request exhausted number of retries")
          (requestLoop (dispatcherAttempts s sh rl a u) rt).2
          (some (Request.mk "POST" (rewrittenUri u) d (rewrittenHeaders u))) := by
      rw [apiRequest, doRequest, if_neg hact, if_neg huse]
      show (if (requestLoop (dispatcherAttempts s sh rl a u) rt).1.2.2 ≠ none then _ else _) = _
      rw [if_pos hlast]
      rfl
    rw [hdo]
    exact ⟨rfl, rfl⟩

/-- Closed instance of the amended C3: headers `[148, 1]` parse to 404 at the
`Relay.Request` level and the error is propagated there with that code. -/
theorem relay_error_code_amended_witness :
    parsedCode (some [148, 1]) = 404 ∧
    RelayRequest (Except.ok (Response.mk [7] (some [148, 1]) "oops")) =
      (none, 404, some "Response error: oops") := by
  have h := relay_error_code_amended (Response.mk [7] (some [148, 1]) "oops")
    (fun _ _ => Except.error "e") id [Relay.mk "A" ["/x"]] (fun _ => true)
    1 "/x" [] (by omega) (by decide)
  refine ⟨?_, ?_⟩
  · have h2 := h.2.1 [148, 1] rfl (by decide)
    rw [h2]
    decide
  · have h5 := h.2.2.2.2.1 (by decide)
    rw [h5]
    have h2 := h.2.1 [148, 1] rfl (by decide)
    rw [h2]
    decide

/-- For any suffix `X`, `parseCustomUri` extracts `X` from `"/custom/" ++ X`
(`strings.SplitN` with limit 3 keeps the remainder, slashes included, in the
third part). -/
theorem parseCustomUri_custom (X : String) : parseCustomUri ("/custom/" ++ X) = X := by
  have hsplit : goSplitN ("/custom/" ++ X) '/' 3 = ["", "custom", X] := rfl
  show (if 2 < (goSplitN ("/custom/" ++ X) '/' 3).length ∧
      (goSplitN ("/custom/" ++ X) '/' 3).getD 1 "" = "custom" then
      (goSplitN ("/custom/" ++ X) '/' 3).getD 2 "" else "") = X
  rw [hsplit]
  have hcond : 2 < (["", "custom", X] : List String).length ∧
      (["", "custom", X] : List String).getD 1 "" = "custom" := ⟨by simp, rfl⟩
  rw [if_pos hcond]
  rfl

/-- C5 counterexample: the URI `a/custom/b` is not of the form `/custom/X`
(its first eight characters are not `/custom/`), yet the dispatcher rewrites
it — the envelope carries uri `/custom` and headers `b`, not the unchanged
URI with nil headers — because `strings.SplitN` only requires the second
`/`-separated field to be `custom`. -/
theorem custom_uri_rewrite_counterexample :
    "a/custom/b".data.take 8 ≠ "/custom/".data ∧
    parseCustomUri "a/custom/b" = "b" ∧
    (doRequest (fun _ _ => Except.ok (Response.mk [] (some [0, 0]) "")) id
      [Relay.mk "A" ["/custom"]] (fun _ => true) 1 "POST" "a/custom/b" [1]).request =
      some (Request.mk "POST" "/custom" [1] (some (strBytes "b"))) ∧
    (doRequest (fun _ _ => Except.ok (Response.mk [] (some [0, 0]) "")) id
      [Relay.mk "A" ["/custom"]] (fun _ => true) 1 "POST" "a/custom/b" [1]).request ≠
      some (Request.mk "POST" "a/custom/b" [1] none) := by
  refine ⟨by decide, by decide, by decide, by decide⟩

/-- C5 (amended): the envelope built by `Api.doRequest` carries the rewritten
URI and headers; the rewrite fires exactly when `parseCustomUri` finds a
non-empty endpoint — i.e. when the second `/`-separated field of the URI is
`custom` and a non-empty remainder follows — replacing the URI by `/custom`
and placing the endpoint bytes in the headers; otherwise the URI is carried
unchanged with nil headers. Every URI `"/custom/" ++ X` with `X ≠ ""` is of
that shape. -/
theorem custom_uri_rewrite_amended (s : String → Nat → Except String Response)
    (sh : List Relay → List Relay) (rl : List Relay) (a : String → Bool)
    (rt : Nat) (m u : String) (d : Bytes)
    (hsupp : useRelayers rl a (rewrittenUri u) ≠ []) :
    (doRequest s sh rl a rt m u d).request =
      some (Request.mk m (rewrittenUri u) d (rewrittenHeaders u)) ∧
    (parseCustomUri u = "" → rewrittenUri u = u ∧ rewrittenHeaders u = none) ∧
    (parseCustomUri u ≠ "" → rewrittenUri u = "/custom" ∧
      rewrittenHeaders u = some (strBytes (parseCustomUri u))) ∧
    (∀ X : String, parseCustomUri ("/custom/" ++ X) = X) := by
  have hact : ¬((activeRelayers rl a).length = 0) := by
    intro h0
    exact hsupp (useRelayers_of_active_nil rl a _ (List.length_eq_zero.mp h0))
  have huse : ¬((useRelayers rl a (rewrittenUri u)).length = 0) := by
    intro h0
    exact hsupp (List.length_eq_zero.mp h0)
  refine ⟨?_, ?_, ?_, parseCustomUri_custom⟩
  · have hdo : doRequest s sh rl a rt m u d =
        (if (requestLoop (attemptResult s
            (shuffledRelayers sh (useRelayers rl a (rewrittenUri u)))) rt).1.2.2 ≠ none then
          DoReqOut.mk none 500 (some "request exhausted number of retries")
            (requestLoop (attemptResult s
              (shuffledRelayers sh (useRelayers rl a (rewrittenUri u)))) rt).2
            (some (Request.mk m (rewrittenUri u) d (rewrittenHeaders u)))
        else
          DoReqOut.mk
            (requestLoop (attemptResult s
              (shuffledRelayers sh (useRelayers rl a (rewrittenUri u)))) rt).1.1
            (requestLoop (attemptResult s
              (shuffledRelayers sh (useRelayers rl a (rewrittenUri u)))) rt).1.2.1 none
            (requestLoop (attemptResult s
              (shuffledRelayers sh (useRelayers rl a (rewrittenUri u)))) rt).2
            (some (Request.mk m (rewrittenUri u) d (rewrittenHeaders u)))) := by
      rw [doRequest, if_neg hact, if_neg huse]
    rw [hdo]
    by_cases hf : (requestLoop (attemptResult s
        (shuffledRelayers sh (useRelayers rl a (rewrittenUri u)))) rt).1.2.2 ≠ none
    · rw [if_pos hf]
    · rw [if_neg hf]
  · intro h0
    rw [rewrittenUri, rewrittenHeaders]
    simp [h0]
  · intro h0
    rw [rewrittenUri, rewrittenHeaders]
    simp [h0]

/-- Closed instance of the amended C5 (the spec's literal scenario):
`/custom/https://rpc.example.org/v1` produces an envelope with uri `/custom`
and the HTTPS URL in the headers. -/
theorem custom_uri_rewrite_amended_witness :
    useRelayers [Relay.mk "A" ["/custom"]] (fun _ => true)
      (rewrittenUri "/custom/https://rpc.example.org/v1") ≠ [] ∧
    (doRequest (fun _ _ => Except.ok (Response.mk [] (some [0, 0]) "")) id
      [Relay.mk "A" ["/custom"]] (fun _ => true) 1 "POST"
      "/custom/https://rpc.example.org/v1" [1]).request =
      some (Request.mk "POST" "/custom" [1]
        (some (strBytes "https://rpc.example.org/v1"))) := by
  refine ⟨by decide, ?_⟩
  have h := (custom_uri_rewrite_amended
    (fun _ _ => Except.ok (Response.mk [] (some [0, 0]) "")) id
    [Relay.mk "A" ["/custom"]] (fun _ => true) 1 "POST"
    "/custom/https://rpc.example.org/v1" [1] (by decide)).1
  rw [h]
  rfl

/-! ## HTTP ingress header construction (http/client/cmd/http.go) -/

/-- `Header{key, values}` (the JSON header pair of http.go and the relay
forwarder). -/
structure Header where
  key : String
  values : List String
deriving DecidableEq, Repr

/-- The header list `ServeHTTP` builds for a normal (non-CONNECT) request:
the request's own headers (one entry per key, in some Go map iteration
order), then the synthetic `X-PROXXY-URL` entry holding the raw
`r.RequestURI`, then `X-PROXXY-METHOD` (http.go lines 100-106). -/
def buildProxyHeaders (reqHeaders : List Header) (requestURI method : String) : List Header :=
  reqHeaders ++
    [Header.mk "X-PROXXY-URL" [requestURI], Header.mk "X-PROXXY-METHOD" [method]]

/-- Modelled from the spec: the §4.3 URL construction rule — "if the request
URI begins with `/`, prefix with `Host`; otherwise use the URI as-is" —
stated for comparison with the code's `buildProxyHeaders`. -/
def specXProxxyUrl (host requestURI : String) : String :=
  if requestURI.data.take 1 = ['/'] then host ++ requestURI else requestURI

/-- C6 counterexample: for a request with `RequestURI = "/foo"` (which begins
with `/`) and `Host = "example.com"`, the spec's rule yields
`example.com/foo`, but the code's synthetic `X-PROXXY-URL` header carries the
unchanged `/foo` — `r.Host` is never consulted (http.go line 105). -/
theorem proxxy_url_counterexample :
    specXProxxyUrl "example.com" "/foo" = "example.com/foo" ∧
    buildProxyHeaders [] "/foo" "GET" =
      [Header.mk "X-PROXXY-URL" ["/foo"], Header.mk "X-PROXXY-METHOD" ["GET"]] ∧
    Header.mk "X-PROXXY-URL" ["/foo"] ≠
      Header.mk "X-PROXXY-URL" ["example.com/foo"] := by
  refine ⟨by decide, by decide, by decide⟩

/-- C6 (amended): the synthetic `X-PROXXY-URL` header equals the request URI
unchanged in every case — whether or not the URI begins with `/`, and for any
`Host` value; the entry sits right after the request's own headers. -/
theorem proxxy_url_amended (reqHeaders : List Header) (requestURI method host : String) :
    buildProxyHeaders reqHeaders requestURI method =
      reqHeaders ++
        [Header.mk "X-PROXXY-URL" [requestURI], Header.mk "X-PROXXY-METHOD" [method]] ∧
    (buildProxyHeaders reqHeaders requestURI method).getD reqHeaders.length
      (Header.mk "" []) = Header.mk "X-PROXXY-URL" [requestURI] ∧
    (requestURI.data.take 1 ≠ ['/'] → specXProxxyUrl host requestURI = requestURI) := by
  refine ⟨rfl, ?_, ?_⟩
  · induction reqHeaders with
    | nil => rfl
    | cons h t ih =>
      rw [buildProxyHeaders] at ih ⊢
      simpa using ih
  · intro h
    rw [specXProxxyUrl, if_neg h]

/-- Closed instance of the amended C6: an absolute-URL request URI is carried
unchanged in the synthetic header, and so is a path-style one. -/
theorem proxxy_url_amended_witness :
    (buildProxyHeaders [] "http://e.com/x" "GET").getD 0 (Header.mk "" []) =
      Header.mk "X-PROXXY-URL" ["http://e.com/x"] ∧
    (buildProxyHeaders [] "/x" "GET").getD 0 (Header.mk "" []) =
      Header.mk "X-PROXXY-URL" ["/x"] := by
  exact ⟨(proxxy_url_amended [] "http://e.com/x" "GET" "e.com").2.1,
    (proxxy_url_amended [] "/x" "GET" "e.com").2.1⟩

/-! ## Relay-side network registry and JSON-RPC executor -/

/-- Model of Go `url.URL` restricted to the field the relay reads
(`Scheme`); the `url.Parse` oracle returns `none` on a parse error. -/
structure GoUrl where
  scheme : String
deriving DecidableEq, Repr

/-- `isValidHTTPSURL`: the input must parse and have scheme `https`. -/
def isValidHTTPSURL (parse : String → Option GoUrl) (input : String) : Bool :=
  match parse input with
  | none => false
  | some u => u.scheme == "https"

/-- `getEndpointFromHeaders`: nil or empty headers give `""`; otherwise the
header bytes as a string when they form a valid HTTPS URL, else `""`. -/
def getEndpointFromHeaders (parse : String → Option GoUrl)
    (headers : Option Bytes) : String :=
  match headers with
  | none => ""
  | some hs =>
    if hs.length = 0 then ""
    else if isValidHTTPSURL parse (bytesStr hs) then bytesStr hs else ""

/-- The canonical JSON-RPC test request of the startup probe. -/
def testRequest : String :=
  "\x7b\"id\":\"1\", \"jsonrpc\":\"2.0\", \"method\": \"\", \"params\":[]\x7d"

/-- Outcome oracle for `queryJsonRpc url data`: `Except.error e` when the
HTTP POST fails, `Except.ok (body, statusCode)` otherwise. -/
abbrev QueryOracle := String → Bytes → Except String (Bytes × Nat)

/-- `testConnectJsonRpc`: POST the canonical test request; the endpoint is
valid iff the call succeeded with HTTP code 200 or 400. -/
def testConnectJsonRpc (query : QueryOracle) (url : String) : Bool :=
  match query url (strBytes testRequest) with
  | Except.error _ => false
  | Except.ok (_, code) => code == 200 || code == 400

/-- The endpoint `doQuery` selects: `endpoints[0]`, or a uniformly random one
when more than one is configured (`pick` is the PRNG oracle, reduced modulo
the length as `rand.Intn` guarantees). -/
def chooseEndpoint (pick : Nat → Nat) (endpoints : List String) : String :=
  if 1 < endpoints.length then
    endpoints.getD (pick endpoints.length % endpoints.length) ""
  else endpoints.getD 0 ""

/-- `doQuery` (the three-result variant called by `Network.Callback`): POST
the body to the chosen endpoint; a failed POST yields `(nil, 500, err)`. -/
def doQuery (pick : Nat → Nat) (query : QueryOracle) (endpoints : List String)
    (data : Bytes) : Option Bytes × Nat × Option String :=
  match query (chooseEndpoint pick endpoints) data with
  | Except.error e => (none, 500, some e)
  | Except.ok (body, code) => (some body, code, none)

/-- `binary.LittleEndian.PutUint16` into the 2-byte response header buffer. -/
def le16Bytes (code : Nat) : Bytes := [code % 256, code / 256 % 256]

/-- Relay-side response envelope of `Network.Callback`: content, the 2-byte
status headers, error string. -/
structure RpcResponse where
  content : Option Bytes
  headers : Bytes
  error : String
deriving DecidableEq, Repr

/-- The tail of `Network.Callback` once no error was recorded: run `doQuery`
and fill the envelope (content on success, `Error in JSON-RPC query: ...`
with the returned code on failure). -/
def rpcQueryStep (pick : Nat → Nat) (query : QueryOracle) (endpoints : List String)
    (content : Bytes) : RpcResponse :=
  match doQuery pick query endpoints content with
  | (_, code, some e) =>
    RpcResponse.mk none (le16Bytes code) ("Error in JSON-RPC query: " ++ e)
  | (body, code, none) => RpcResponse.mk body (le16Bytes code) ""

/-- `Network.Callback` with, as a ghost observation, the list of upstream
endpoints actually contacted (the `/custom` probe and/or the JSON-RPC
target). The code starts at 400; error paths keep it; the final
`PutUint16(code)` is the 2-byte headers field. -/
def networkCallback (parse : String → Option GoUrl) (query : QueryOracle)
    (pick : Nat → Nat) (nuri : String) (nendpoints : List String)
    (content : Bytes) (reqHeaders : Option Bytes) : RpcResponse × List String :=
  if content.length = 0 then
    (RpcResponse.mk none (le16Bytes 400) "Request content cannot be empty", [])
  else if nuri = "/custom" then
    let endpoint := getEndpointFromHeaders parse reqHeaders
    if endpoint = "" then
      (RpcResponse.mk none (le16Bytes 400)
        "Request doesn't have a valid custom endpoint URL in request Headers", [])
    else if testConnectJsonRpc query endpoint then
      (rpcQueryStep pick query [endpoint] content,
        [endpoint, chooseEndpoint pick [endpoint]])
    else
      (RpcResponse.mk none (le16Bytes 400) "Provided custom endpoint URL is unreachable",
        [endpoint])
  else
    (rpcQueryStep pick query nendpoints content, [chooseEndpoint pick nendpoints])

/-- C7: a `/custom` request with non-empty content whose headers are nil,
empty, or fail the HTTPS-URL validation (in particular any URL whose parsed
scheme is not `https`, such as `http`) gets
`error = "Request doesn't have a valid custom endpoint URL in request
Headers"` and no upstream endpoint is contacted. -/
theorem custom_invalid_url_rejected (parse : String → Option GoUrl)
    (query : QueryOracle) (pick : Nat → Nat) (eps : List String)
    (content : Bytes) (reqHeaders : Option Bytes)
    (hc : content ≠ [])
    (hinv : reqHeaders = none ∨ reqHeaders = some [] ∨
      ∃ hs, reqHeaders = some hs ∧ isValidHTTPSURL parse (bytesStr hs) = false) :
    networkCallback parse query pick "/custom" eps content reqHeaders =
      (RpcResponse.mk none (le16Bytes 400)
        "Request doesn't have a valid custom endpoint URL in request Headers", []) ∧
    (∀ input u, parse input = some u → u.scheme ≠ "https" →
      isValidHTTPSURL parse input = false) ∧
    (∀ input, parse input = none → isValidHTTPSURL parse input = false) := by
  have hend : getEndpointFromHeaders parse reqHeaders = "" := by
    rcases hinv with h | h | ⟨hs, hhs, hbad⟩
    · rw [h]
      rfl
    · rw [h]
      rfl
    · rw [hhs]
      show (if hs.length = 0 then ""
        else if isValidHTTPSURL parse (bytesStr hs) then bytesStr hs else "") = ""
      by_cases hz : hs.length = 0
      · rw [if_pos hz]
      · rw [if_neg hz, hbad]
        rfl
  have hclen : ¬(content.length = 0) := by
    intro h0
    exact hc (List.length_eq_zero.mp h0)
  refine ⟨?_, ?_, ?_⟩
  · rw [networkCallback, if_neg hclen, if_pos rfl]
    show (if getEndpointFromHeaders parse reqHeaders = "" then _ else _) = _
    rw [if_pos hend]
  · intro input u hp hns
    rw [isValidHTTPSURL.eq_def, hp]
    simpa using hns
  · intro input hp
    rw [isValidHTTPSURL.eq_def, hp]

/-- Closed instance of C7: headers holding `http://x.y/rpc` under a parser
that reports scheme `http` are rejected with the invalid-URL error and no
endpoint is contacted. -/
theorem custom_invalid_url_rejected_witness :
    networkCallback (fun _ => some (GoUrl.mk "http"))
      (fun _ _ => Except.ok ([], 200)) (fun _ => 0) "/custom" []
      [123] (some (strBytes "http://x.y/rpc")) =
      (RpcResponse.mk none (le16Bytes 400)
        "Request doesn't have a valid custom endpoint URL in request Headers", []) := by
  exact (custom_invalid_url_rejected (fun _ => some (GoUrl.mk "http"))
    (fun _ _ => Except.ok ([], 200)) (fun _ => 0) [] [123]
    (some (strBytes "http://x.y/rpc")) (by decide)
    (Or.inr (Or.inr ⟨strBytes "http://x.y/rpc", rfl, by decide⟩))).1

/-- Relay-side configured subnet (`NetworkConfig{name, endpoints}`). -/
structure NetworkConfig where
  name : String
  endpoints : List String
deriving DecidableEq, Repr

/-- A registered network (`Network{uri, endpoints}`). -/
structure Network where
  uri : String
  endpoints : List String
deriving DecidableEq, Repr

/-- The endpoints of one configured subnet surviving the startup probe. -/
def survivingEndpoints (query : QueryOracle) (cfg : NetworkConfig) : List String :=
  cfg.endpoints.filter (fun url => testConnectJsonRpc query url)

/-- `Manager.initNetworks`: for each configured `(network, subnet)` pair (the
association list stands in for one Go map iteration order) form the URI
`"/" ++ network ++ "/" ++ name`, keep the probed endpoints, and register a
POST handler only when at least one endpoint survives; then always append the
`/custom` network (empty endpoint list, POST handler) and the `/networks` GET
handler. Returns the `networks` list and the registered `(uri, verb)`
pairs. -/
def initNetworks (query : QueryOracle) (cfg : List (String × List NetworkConfig)) :
    List Network × List (String × String) :=
  let base := (cfg.map (fun p =>
    p.2.filterMap (fun n =>
      if (survivingEndpoints query n).length = 0 then none
      else some (Network.mk ("/" ++ p.1 ++ "/" ++ n.name)
        (survivingEndpoints query n))))).flatten
  (base ++ [Network.mk "/custom" []],
    base.map (fun nw => (nw.uri, "POST")) ++ [("/custom", "POST"), ("/networks", "GET")])

/-- C8: after `initNetworks`, every registered configured network's endpoint
list is exactly the configured URLs whose probe returned HTTP 200 or 400 (and
is non-empty); every configured subnet with a surviving endpoint is
registered; a subnet with none contributes nothing; `/custom` is always
present with an empty endpoint list; and the registered handlers are exactly
one POST per network in the list (including `/custom`) plus the `/networks`
GET handler. -/
theorem init_networks_endpoints (query : QueryOracle)
    (cfg : List (String × List NetworkConfig)) :
    (∀ u, testConnectJsonRpc query u = true ↔
      ∃ body code, query u (strBytes testRequest) = Except.ok (body, code) ∧
        (code = 200 ∨ code = 400)) ∧
    (∀ nw, nw ∈ (initNetworks query cfg).1 → nw.uri ≠ "/custom" →
      ∃ net subnets n, (net, subnets) ∈ cfg ∧ n ∈ subnets ∧
        nw.uri = "/" ++ net ++ "/" ++ n.name ∧
        nw.endpoints = survivingEndpoints query n ∧ nw.endpoints ≠ []) ∧
    (∀ net subnets n, (net, subnets) ∈ cfg → n ∈ subnets →
      survivingEndpoints query n ≠ [] →
      Network.mk ("/" ++ net ++ "/" ++ n.name) (survivingEndpoints query n) ∈
        (initNetworks query cfg).1) ∧
    (Network.mk "/custom" [] ∈ (initNetworks query cfg).1) ∧
    ((initNetworks query cfg).2 =
      (initNetworks query cfg).1.map (fun nw => (nw.uri, "POST")) ++
        [("/networks", "GET")]) := by
  refine ⟨?_, ?_, ?_, ?_, ?_⟩
  · intro u
    rw [testConnectJsonRpc.eq_def]
    cases hq : query u (strBytes testRequest) with
    | error e =>
      simp only [Bool.false_eq_true, false_iff]
      rintro ⟨body, code, hok, _⟩
      exact Except.noConfusion hok
    | ok v =>
      obtain ⟨body, code⟩ := v
      constructor
      · intro hb
        refine ⟨body, code, rfl, ?_⟩
        simpa using hb
      · rintro ⟨body2, code2, hok, hcode⟩
        cases hok
        rcases hcode with h | h
        · simp [h]
        · simp [h]
  · intro nw hmem hnc
    rw [initNetworks] at hmem
    rcases List.mem_append.mp hmem with hb | hcust
    · rw [List.mem_flatten] at hb
      obtain ⟨l, hl, hnwl⟩ := hb
      rw [List.mem_map] at hl
      obtain ⟨p, hp, hpl⟩ := hl
      rw [← hpl, List.mem_filterMap] at hnwl
      obtain ⟨n, hn, hfn⟩ := hnwl
      by_cases hz : (survivingEndpoints query n).length = 0
      · rw [if_pos hz] at hfn
        exact Option.noConfusion hfn
      · rw [if_neg hz] at hfn
        refine ⟨p.1, p.2, n, hp, hn, ?_, ?_, ?_⟩
        · rw [← Option.some_inj.mp hfn]
        · rw [← Option.some_inj.mp hfn]
        · rw [← Option.some_inj.mp hfn]
          show ¬(survivingEndpoints query n = [])
          intro h0
          exact hz (by rw [h0]; rfl)
    · rw [List.mem_singleton] at hcust
      exact absurd (by rw [hcust]) hnc
  · intro net subnets n hmem hn hne
    rw [initNetworks]
    apply List.mem_append_left
    rw [List.mem_flatten]
    refine ⟨subnets.filterMap (fun n =>
      if (survivingEndpoints query n).length = 0 then none
      else some (Network.mk ("/" ++ net ++ "/" ++ n.name)
        (survivingEndpoints query n))), ?_, ?_⟩
    · rw [List.mem_map]
      exact ⟨(net, subnets), hmem, rfl⟩
    · rw [List.mem_filterMap]
      refine ⟨n, hn, ?_⟩
      rw [if_neg (by
        intro h0
        exact hne (List.length_eq_zero.mp h0))]
  · rw [initNetworks]
    exact List.mem_append_right _ (List.mem_singleton.mpr rfl)
  · rw [initNetworks]
    rw [List.map_append, List.append_assoc]
    rfl

/-- Closed instance of C8: with one live endpoint (`https://good`, probe 200)
and one dead (`https://bad`, probe failure), the registry keeps only the live
endpoint under `/ethereum/mainnet`, drops the all-dead subnet, and registers
exactly its POST handler, `/custom` POST and `/networks` GET. -/
theorem init_networks_endpoints_witness :
    Network.mk "/custom" [] ∈
      (initNetworks
        (fun u _ => if u = "https://good" then Except.ok ([], 200)
          else Except.error "unreachable")
        [("ethereum", [NetworkConfig.mk "mainnet" ["https://good", "https://bad"],
          NetworkConfig.mk "dead" ["https://bad"]])]).1 ∧
    initNetworks
      (fun u _ => if u = "https://good" then Except.ok ([], 200)
        else Except.error "unreachable")
      [("ethereum", [NetworkConfig.mk "mainnet" ["https://good", "https://bad"],
        NetworkConfig.mk "dead" ["https://bad"]])] =
      ([Network.mk "/ethereum/mainnet" ["https://good"], Network.mk "/custom" []],
        [("/ethereum/mainnet", "POST"), ("/custom", "POST"), ("/networks", "GET")]) := by
  constructor
  · exact (init_networks_endpoints
      (fun u _ => if u = "https://good" then Except.ok ([], 200)
        else Except.error "unreachable")
      [("ethereum", [NetworkConfig.mk "mainnet" ["https://good", "https://bad"],
        NetworkConfig.mk "dead" ["https://bad"]])]).2.2.2.1
  · decide

/-! ## Relay-side `/proxy` forwarder (`HttpProxy.Callback`) -/

/-- Case-insensitive key standing in for Go `http.Header` canonicalisation
(`Add` and `Get` both canonicalise, making lookups case-insensitive). -/
def canonKey (s : String) : String := s.toLower

/-- Go `http.Header.Get` after folding the decoded `[]Header` list with
`Add`: the first value filed under the canonical key, `""` when absent. -/
def headerGet (hs : List Header) (k : String) : String :=
  ((hs.filter (fun h => canonKey h.key == canonKey k)).map Header.values).flatten.headD ""

/-- Go string slicing `s[:n]`: `none` models the slice-bounds panic when
`n > len(s)`; character count stands in for byte count (they agree on ASCII
header values). -/
def strTake (s : String) (n : Nat) : Option String :=
  if n ≤ s.data.length then some (String.mk (s.data.take n)) else none

/-- The scheme-prefix check of the relay `/proxy` forwarder:
`if url[:7] != "http://" && url[:8] != "https://" { url = "http://" + url }`,
with Go's slice-bounds panics surfaced as `Except.error` (note `&&`
short-circuits, so `url[:8]` is only sliced when `url[:7]` differed from
`http://`). -/
def schemeFix (url : String) : Except String String :=
  match strTake url 7 with
  | none => Except.error "slice bounds out of range"
  | some p7 =>
    if p7 = "http://" then Except.ok url
    else
      match strTake url 8 with
      | none => Except.error "slice bounds out of range"
      | some p8 =>
        if p8 = "https://" then Except.ok url
        else Except.ok ("http://" ++ url)

/-- Outcome oracle for the forwarder's HTTP call: `none` models a
request-creation or transport error (both set code `"500"`), otherwise the
upstream status, response headers and body. -/
abbrev HttpDoOracle := String → String → Bytes → Option (Nat × List Header × Bytes)

/-- `/proxy` response envelope before JSON encoding: the header list (with
the synthetic `X-PROXXY-RESPCODE` appended) and the optional body. -/
structure ProxyResp where
  headers : List Header
  content : Option Bytes
deriving DecidableEq, Repr

/-- The forwarder's tail once a URL passed the scheme check: perform the
HTTP request and build the response headers plus `X-PROXXY-RESPCODE`. -/
def forwardRequest (httpDo : HttpDoOracle) (method url : String)
    (content : Bytes) : ProxyResp :=
  match httpDo method url content with
  | none => ProxyResp.mk [Header.mk "X-PROXXY-RESPCODE" ["500"]] none
  | some (status, respHeaders, body) =>
    ProxyResp.mk (respHeaders ++ [Header.mk "X-PROXXY-RESPCODE" [toString status]])
      (some body)

/-- `HttpProxy.Callback` (the variant with the scheme-prefix check): decode
the request headers (`decode` is the JSON oracle; a decode error skips
straight to the `"400"` response), read `X-PROXXY-URL` and
`X-PROXXY-METHOD`, run the scheme check — where Go panics on a short URL —
then forward. `Except.error` is the propagated panic: no response envelope
is produced. -/
def proxyCallback (decode : Bytes → Option (List Header)) (httpDo : HttpDoOracle)
    (reqHeaders reqContent : Bytes) : Except String ProxyResp :=
  match decode reqHeaders with
  | none => Except.ok (ProxyResp.mk [Header.mk "X-PROXXY-RESPCODE" ["400"]] none)
  | some headers =>
    match schemeFix (headerGet headers "X-PROXXY-URL") with
    | Except.error e => Except.error e
    | Except.ok url =>
      Except.ok (forwardRequest httpDo (headerGet headers "X-PROXXY-METHOD") url
        reqContent)

/-- C10: whenever the request headers decode to a header list whose
`X-PROXXY-URL` value is shorter than 7 bytes (in particular when the header
is absent and `Get` yields `""`), the forwarder panics on the `url[:7]`
scheme-prefix slice instead of returning a response envelope. -/
theorem proxy_short_url_panics (decode : Bytes → Option (List Header))
    (httpDo : HttpDoOracle) (reqHeaders reqContent : Bytes) (hs : List Header)
    (hdec : decode reqHeaders = some hs)
    (hlen : (headerGet hs "X-PROXXY-URL").data.length < 7) :
    proxyCallback decode httpDo reqHeaders reqContent =
      Except.error "slice bounds out of range" := by
  have htake : strTake (headerGet hs "X-PROXXY-URL") 7 = none := by
    rw [strTake, if_neg (by omega)]
  have hscheme : schemeFix (headerGet hs "X-PROXXY-URL") =
      Except.error "slice bounds out of range" := by
    rw [schemeFix.eq_def, htake]
  rw [proxyCallback.eq_def, hdec]
  show (match schemeFix (headerGet hs "X-PROXXY-URL") with
    | Except.error e => Except.error e
    | Except.ok url =>
      Except.ok (forwardRequest httpDo (headerGet hs "X-PROXXY-METHOD") url
        reqContent)) = Except.error "slice bounds out of range"
  rw [hscheme]

/-- Closed instance of C10: headers decoding to an empty list (so
`X-PROXXY-URL` is absent and its value is `""`) make the forwarder panic. -/
theorem proxy_short_url_panics_witness :
    proxyCallback (fun _ => some []) (fun _ _ _ => none) [] [42] =
      Except.error "slice bounds out of range" := by
  exact proxy_short_url_panics (fun _ => some []) (fun _ _ _ => none) [] [42]
    [] rfl (by decide)

end Proxxy
